import Mathlib

/-!
# Verification of the ReWOO agent core (plan model, plan-text parser, executor)

Shallow embedding of the Python sources of `pywind/rewoo-agent`:

* `src/models/plan.py` — `PlanStep`, `Plan`, `ExecutionContext` and their methods;
* `src/rewoo_agent/services/planner.py` — `PlannerService._parse_plan_text`,
  `_create_fallback_plan`, `_generate_plan_steps`;
* `src/rewoo_agent/services/executor.py` — `ExecutorService.execute_plan`,
  `_execute_step`, `_execute_tool_step`, `_execute_solve_step`;
* `src/rewoo_agent/tools/base.py` — `ToolResult`, `ToolRegistry.execute_tool`;
* `src/rewoo_agent/services/rewoo_service.py` — `ReWOOService.cancel_task`.

Python strings are Lean `String`; Python string methods (`strip`, `split`,
`replace`, `in`, `startswith`) are re-implemented below with Python's
semantics (left-to-right, non-overlapping scans).  `datetime` timestamps and
log output are omitted: no verified property depends on wall-clock values.
The external language-model completion service and the tools are modelled as
oracles carried in an `Env` record (`none` / `Except.error` models a raised
exception inside the external call).
-/

namespace ReWOO

/-! ## Python value and string primitives -/

/-- A dynamically typed Python value, as far as the plan engine stores one:
`step.result` holds `None`, a string, an int, or a bool. -/
inductive PyVal where
  | vNone
  | vStr (s : String)
  | vInt (n : Int)
  | vBool (b : Bool)
  deriving DecidableEq, Repr

/-- Python `str(v)`. -/
def PyVal.pyStr : PyVal → String
  | .vNone => "None"
  | .vStr s => s
  | .vInt n => toString n
  | .vBool b => if b then "True" else "False"

/-- Python truthiness of a value (`if v:`). -/
def PyVal.truthy : PyVal → Bool
  | .vNone => false
  | .vStr s => s ≠ ""
  | .vInt n => n ≠ 0
  | .vBool b => b

/-- Whitespace characters removed by Python's `str.strip()`. -/
def isPyWs (c : Char) : Bool :=
  c = ' ' || c = '\t' || c = '\n' || c = '\r' || c = Char.ofNat 11 || c = Char.ofNat 12

/-- Python `s.strip()`. -/
def pyStrip (s : String) : String :=
  ⟨(s.data.dropWhile isPyWs).reverse.dropWhile isPyWs |>.reverse⟩

/-- Python `p in s` (substring containment) on character lists. -/
def containsSubChars (p : List Char) : List Char → Bool
  | [] => p = []
  | c :: rest => p.isPrefixOf (c :: rest) || containsSubChars p rest

/-- Python `p in s` (substring containment). -/
def pyContains (s p : String) : Bool :=
  containsSubChars p.data s.data

/-- One left-to-right non-overlapping replace-all scan, Python
`s.replace(p, v)` for a non-empty pattern `p`.  `fuel` only drives the
structural recursion; `fuel = s.length` always suffices because each step
consumes at least one character of `s`. -/
def replaceChars (p v : List Char) : Nat → List Char → List Char
  | _, [] => []
  | 0, s => s
  | fuel + 1, c :: rest =>
    if p ≠ [] ∧ p.isPrefixOf (c :: rest) then
      v ++ replaceChars p v fuel ((c :: rest).drop p.length)
    else
      c :: replaceChars p v fuel rest

/-- Python `s.replace(p, v)` (all occurrences; the pattern is never empty at
any call site of this development). -/
def pyReplace (s p v : String) : String :=
  ⟨replaceChars p.data v.data s.data.length s.data⟩

/-- Python `s.split(sep)` (all occurrences of a non-empty separator), on
character lists, fuel-driven as in `replaceChars`. -/
def splitChars (sep : List Char) : Nat → List Char → List Char → List (List Char)
  | _, [], acc => [acc.reverse]
  | 0, s, acc => [acc.reverse ++ s]
  | fuel + 1, c :: rest, acc =>
    if sep ≠ [] ∧ sep.isPrefixOf (c :: rest) then
      acc.reverse :: splitChars sep fuel ((c :: rest).drop sep.length) []
    else
      splitChars sep fuel rest (c :: acc)

/-- Python `s.split(sep)` for a non-empty separator. -/
def pySplit (s sep : String) : List String :=
  (splitChars sep.data s.data.length s.data []).map fun l => ⟨l⟩

/-- Python `s.split(sep, 1)` (split at the first occurrence only), on
character lists. -/
def split1Chars (sep : List Char) : Nat → List Char → List Char → List (List Char)
  | _, [], acc => [acc.reverse]
  | 0, s, acc => [acc.reverse ++ s]
  | fuel + 1, c :: rest, acc =>
    if sep ≠ [] ∧ sep.isPrefixOf (c :: rest) then
      [acc.reverse, (c :: rest).drop sep.length]
    else
      split1Chars sep fuel rest (c :: acc)

/-- Python `s.split(sep, 1)` for a non-empty separator. -/
def pySplit1 (s sep : String) : List String :=
  (split1Chars sep.data s.data.length s.data []).map fun l => ⟨l⟩

/-- Python `s.startswith(p)`. -/
def pyStartsWith (s p : String) : Bool :=
  p.data.isPrefixOf s.data

/-- Digits-only parse helper for `int(...)`. -/
def parseDigits : List Char → Option Nat
  | [] => none
  | ds =>
    if ds.all Char.isDigit then
      some (ds.foldl (fun acc c => 10 * acc + (c.toNat - 48)) 0)
    else
      none

/-- Python `int(s)` on an already-stripped string: an optional sign followed
by at least one ASCII digit; `none` models the raised `ValueError`. -/
def pyInt (s : String) : Option Int :=
  match s.data with
  | '-' :: ds => (parseDigits ds).map fun n => -(n : Int)
  | '+' :: ds => (parseDigits ds).map fun n => (n : Int)
  | ds => (parseDigits ds).map fun n => (n : Int)

/-- Python `", ".join(l)` and friends. -/
def pyJoin (sep : String) : List String → String
  | [] => ""
  | [s] => s
  | s :: rest => s ++ sep ++ pyJoin sep rest

end ReWOO

-- sanity checks of the Python string semantics (kept: they document the
-- left-to-right non-overlapping scan the proofs below rely on)
example : ReWOO.pyReplace "##a##" "#a#" "x" = "#x#" := by decide
example : ReWOO.pySplit "a -> b -> c" " -> " = ["a", "b", "c"] := by decide
example : ReWOO.pySplit1 "a -> b -> c" " -> " = ["a", "b -> c"] := by decide
example : ReWOO.pySplit1 "1. TOOL x y" "." = ["1", " TOOL x y"] := by decide
example : ReWOO.pyStrip "  hi \n" = "hi" := by decide
example : ReWOO.pyInt "12" = some 12 := by decide
example : ReWOO.pyInt "-3" = some (-3) := by decide
example : ReWOO.pyInt "1a" = none := by decide
example : ReWOO.pyContains "##a##" "#a#" = true := by decide
example : ReWOO.pyContains "y" "#a#" = false := by decide
example : ReWOO.pyReplace "#answer#" "#" "" = "answer" := by decide

namespace ReWOO

/-! ## Data model (`src/models/plan.py`) -/

/-- Source `PlanStepType` — types of plan steps. -/
inductive PlanStepType where
  | tool
  | solve
  deriving DecidableEq, Repr

/-- Source `PlanStepType.value` (the enum's string value). -/
def PlanStepType.value : PlanStepType → String
  | .tool => "tool"
  | .solve => "solve"

/-- Source `PlanStepStatus` — status of a plan step. -/
inductive PlanStepStatus where
  | pending
  | running
  | completed
  | failed
  | skipped
  deriving DecidableEq, Repr

/-- Source `PlanStatus` — status of a plan. -/
inductive PlanStatus where
  | created
  | running
  | completed
  | failed
  | cancelled
  deriving DecidableEq, Repr

/-- Source `TaskStatus` (`src/models/task.py`) — task execution status, as far as
cancellation is concerned. -/
inductive TaskStatus where
  | pending
  | planning
  | executing
  | completed
  | failed
  | cancelled
  deriving DecidableEq, Repr

/-- Source `PlanStep` — a single step in a ReWOO plan.  The `datetime` fields
`started_at` / `completed_at` are omitted (wall-clock only). -/
structure PlanStep where
  step_id : String
  step_type : PlanStepType
  step_number : Int
  tool_name : Option String := none
  tool_input : Option String := none
  variable_name : Option String := none
  dependencies : List String := []
  description : String
  status : PlanStepStatus := .pending
  result : PyVal := .vNone
  error : Option String := none
  deriving DecidableEq, Repr

/-- Source `Plan` — a complete ReWOO plan.  `created_at` / `started_at` /
`completed_at` and the opaque `metadata` bag are omitted. -/
structure Plan where
  plan_id : String
  task_description : String
  steps : List PlanStep := []
  status : PlanStatus := .created
  final_answer : Option String := none
  deriving DecidableEq, Repr

/-- Variable bindings, a Python `dict` in insertion order. -/
abbrev Vars := List (String × PyVal)

/-- Python `dict` assignment `d[k] = v`: an existing key keeps its position,
a new key is appended. -/
def dictSet (d : Vars) (k : String) (v : PyVal) : Vars :=
  if d.any fun p => p.1 = k then
    d.map fun p => if p.1 = k then (k, v) else p
  else
    d ++ [(k, v)]

/-- Source `ExecutionContext` — context for plan execution.  The `plan` field is
carried separately by the executor below (in Python it is an alias of the
plan being executed); `current_step` is omitted (purely informational). -/
structure ExecutionContext where
  «variables» : Vars := []
  iteration : Nat := 0
  max_iterations : Nat := 10
  deriving DecidableEq, Repr

/-- Source `Plan.get_step_by_id`: first step with the given id, or `None`. -/
def get_step_by_id (steps : List PlanStep) (sid : String) : Option PlanStep :=
  steps.find? fun s => s.step_id = sid

/-- Source `Plan._are_dependencies_completed`: every listed dependency id resolves
to a step whose status is COMPLETED (a dangling id fails the check). -/
def are_dependencies_completed (steps : List PlanStep) (s : PlanStep) : Bool :=
  s.dependencies.all fun dep_id =>
    match get_step_by_id steps dep_id with
    | none => false
    | some dep_step => dep_step.status = .completed

/-- The `for` loop of `Plan.get_next_step`, additionally reporting the
position of the selected step (the Python code mutates the selected step
object in place; the pure embedding needs its index). -/
def find_runnable (all : List PlanStep) : List PlanStep → Nat → Option (Nat × PlanStep)
  | [], _ => none
  | s :: rest, i =>
    if s.status = PlanStepStatus.pending && are_dependencies_completed all s then
      some (i, s)
    else
      find_runnable all rest (i + 1)

/-- Source `Plan.get_next_step`: the first PENDING step whose dependencies are all
COMPLETED, or `None`. -/
def get_next_step (p : Plan) : Option PlanStep :=
  (find_runnable p.steps p.steps 0).map fun r => r.2

/-- Source `Plan.is_completed`: every step has status COMPLETED. -/
def is_completed (steps : List PlanStep) : Bool :=
  steps.all fun s => s.status = .completed

/-- Source `Plan.has_failed_steps`: some step has status FAILED. -/
def has_failed_steps (steps : List PlanStep) : Bool :=
  steps.any fun s => s.status = .failed

/-- Source `ExecutionContext.substitute_variables`: for each bound variable in
dict order, if its `#name#` placeholder occurs in the running result,
replace every occurrence with `str(value)`. -/
def substitute_variables (vars : Vars) (text : String) : String :=
  vars.foldl
    (fun result kv =>
      let placeholder := "#" ++ kv.1 ++ "#"
      if pyContains result placeholder then pyReplace result placeholder kv.2.pyStr
      else result)
    text

end ReWOO

example :
    ReWOO.substitute_variables [("a", .vStr "1"), ("b", .vStr "2")] "x #a# y #b# #c#" =
      "x 1 y 2 #c#" := by decide

namespace ReWOO

/-! ## Plan text parser (`src/rewoo_agent/services/planner.py`) -/

/-- One iteration of the parsing loop of `PlannerService._parse_plan_text`
for a single (already `\n`-split) line; `none` is `continue` (the line is
skipped), including the `except` clause that catches the `ValueError` of
`int(...)`.  The random `uuid.uuid4()` step id is opaque and modelled by the
empty string. -/
def parse_plan_line (line0 : String) : Option PlanStep :=
  let line := pyStrip line0
  if ¬ pyStartsWith line "Plan:" then none
  else
    let step_text := pyStrip ⟨line.data.drop 5⟩
    match pySplit step_text " -> " with
    | [p0, p1] =>
      let left_part := pyStrip p0
      let variable_name := pyReplace (pyStrip p1) "#" ""
      match pySplit1 left_part "." with
      | [np, restp] =>
        match pyInt (pyStrip np) with
        | none => none
        | some step_number =>
          let rest := pyStrip restp
          let parsed : Option (PlanStepType × Option String × String) :=
            if pyStartsWith rest "TOOL " then
              let tool_part := pyStrip ⟨rest.data.drop 5⟩
              match pySplit1 tool_part " " with
              | [n, i] => some (.tool, some n, i)
              | l => some (.tool, some (l.headD ""), "")
            else if pyStartsWith rest "SOLVE " then
              some (.solve, none, pyStrip ⟨rest.data.drop 6⟩)
            else
              none
          parsed.map fun pt =>
            { step_id := ""
              step_type := pt.1
              step_number := step_number
              tool_name := pt.2.1
              tool_input := some pt.2.2
              variable_name := some variable_name
              description := "Step " ++ toString step_number ++ ": " ++ pt.1.value
                ++ " - " ++ (⟨pt.2.2.data.take 50⟩ : String) ++ "..." }
      | _ => none
    | _ => none

/-- Insert a step after every already-placed step with a smaller-or-equal
step number: folding this over a list is a stable sort by step number. -/
def insertByNumber (x : PlanStep) : List PlanStep → List PlanStep
  | [] => [x]
  | y :: ys =>
    if y.step_number ≤ x.step_number then y :: insertByNumber x ys
    else x :: y :: ys

/-- Source `steps.sort(key=lambda x: x.step_number)`: Python's `list.sort` is a
stable sort by the key; this stable insertion sort is extensionally the
same function. -/
def sortByNumber (steps : List PlanStep) : List PlanStep :=
  steps.foldl (fun acc x => insertByNumber x acc) []

/-- Source `PlannerService._parse_plan_text`: split the stripped response text into
lines, run the per-line parser (skipped lines contribute nothing), then
stably sort the parsed steps by declared step number. -/
def _parse_plan_text (plan_text : String) : List PlanStep :=
  let lines := pySplit (pyStrip plan_text) "\n"
  let steps := lines.filterMap parse_plan_line
  sortByNumber steps

/-- Source `PlannerService._create_fallback_plan`: the deterministic 3-step plan
(search / wikipedia / solve).  The third step's `tool_input` is a plain
string in the source (not an f-string), so `{task_description}` appears
literally in it. -/
def _create_fallback_plan (task_description : String) : List PlanStep :=
  [ { step_id := ""
      step_type := .tool
      step_number := 1
      tool_name := some "search"
      tool_input := some task_description
      variable_name := some "search_result"
      description := "Search for information about: " ++ task_description },
    { step_id := ""
      step_type := .tool
      step_number := 2
      tool_name := some "wikipedia"
      tool_input := some task_description
      variable_name := some "wiki_info"
      description := "Get Wikipedia information about: " ++ task_description },
    { step_id := ""
      step_type := .solve
      step_number := 3
      tool_name := none
      tool_input := some "Use the search results #{search_result}# and Wikipedia information #{wiki_info}# to provide a comprehensive answer to: {task_description}"
      variable_name := some "answer"
      description := "Provide final answer for: " ++ task_description } ]

/-- Source `PlannerService._generate_plan_steps`, with the completion service as an
oracle: `Except.error` models a raised exception inside the `try` block
(the completion call or response access; `_parse_plan_text` itself catches
all its per-line errors and cannot raise).  On an exception the fallback
plan is returned; otherwise the response text is parsed, whatever the
number of steps that yields. -/
def _generate_plan_steps (completion : Except String String)
    (task_description : String) : List PlanStep :=
  match completion with
  | .error _ => _create_fallback_plan task_description
  | .ok plan_text => _parse_plan_text plan_text

end ReWOO

example :
    (ReWOO._parse_plan_text
        "Plan: 1. TOOL calculator 2+2 -> #r#\nPlan: 2. SOLVE Use #r# -> #answer#").map
      (fun s => (s.step_number, s.step_type, s.tool_name, s.tool_input, s.variable_name)) =
      [(1, .tool, some "calculator", some "2+2", some "r"),
       (2, .solve, none, some "Use #r#", some "answer")] := by decide

example : ReWOO._parse_plan_text "no plan here\njust text" = [] := by decide

example : ReWOO._parse_plan_text "Plan: 1. TOOL search a -> b -> #v#" = [] := by decide

namespace ReWOO

/-! ## Tools (`src/rewoo_agent/tools/base.py`) and the execution environment -/

/-- Source `ToolResult` — result from a tool execution (`metadata` / `duration`
omitted: opaque bag and wall clock). -/
structure ToolResult where
  success : Bool
  result : PyVal := .vNone
  error : Option String := none
  deriving DecidableEq, Repr

/-- Source `ToolResult.success_result`. -/
def ToolResult.success_result (result : PyVal) : ToolResult :=
  { success := true, result := result }

/-- Source `ToolResult.error_result`. -/
def ToolResult.error_result (error : String) : ToolResult :=
  { success := false, error := some error }

/-- The external collaborators of the executor, as oracles:
* `tools` — the tool registry's name → behaviour map (`ToolRegistry._tools`);
  a tool's `execute` either returns a `ToolResult` or raises
  (`Except.error` with the exception text);
* `llm` — the completion service used by `_execute_solve_step`, from the
  built user prompt to the response text; `none` models a raised
  exception anywhere in the service call. -/
structure Env where
  tools : List (String × (String → Except String ToolResult))
  llm : String → Option String

/-- Source `ToolRegistry.get_tool`: dictionary lookup by name. -/
def get_tool (tools : List (String × (String → Except String ToolResult)))
    (name : String) : Option (String → Except String ToolResult) :=
  (tools.find? fun p => p.1 = name).map fun p => p.2

/-- Source `ToolRegistry.execute_tool`: a missing tool yields an error result, a
raising tool is caught and wrapped into an error result. -/
def execute_tool (tools : List (String × (String → Except String ToolResult)))
    (tool_name input_data : String) : ToolResult :=
  match get_tool tools tool_name with
  | none => ToolResult.error_result ("Tool '" ++ tool_name ++ "' not found")
  | some tool =>
    match tool input_data with
    | .ok r => r
    | .error e => ToolResult.error_result ("Tool execution failed: " ++ e)

/-! ## Executor (`src/rewoo_agent/services/executor.py`) -/

/-- The `name: value` rendering of the current variables used by
`_execute_solve_step` both for the prompt and for the degraded answer. -/
def renderVars (vars : Vars) : List String :=
  vars.map fun kv => kv.1 ++ ": " ++ kv.2.pyStr

/-- The user prompt built by `_execute_solve_step`. -/
def solveUserPrompt (task_description solve_input : String) (vars : Vars) : String :=
  "Original Task: " ++ task_description ++ "\n\nAvailable Information:\n"
    ++ pyJoin "\n" (renderVars vars)
    ++ "\n\nSolve: " ++ solve_input
    ++ "\n\nPlease provide a final answer based on the available information."

/-- Source `ExecutorService._execute_solve_step`: substitute variables into the
solve input, call the completion service, and strip its answer; if the
service raises, catch and return the best-effort concatenation of the
current `name: value` pairs instead.  This function never raises. -/
def _execute_solve_step (env : Env) (task_description : String) (step : PlanStep)
    (vars : Vars) : String :=
  let solve_input := substitute_variables vars (step.tool_input.getD "")
  match env.llm (solveUserPrompt task_description solve_input vars) with
  | some answer => pyStrip answer
  | none => "Based on the available information: " ++ pyJoin ", " (renderVars vars)

/-- Source `ExecutorService._execute_tool_step`: requires a tool name, substitutes
variables into the tool input, executes the tool through the registry, and
raises (`Except.error`) when the tool result is unsuccessful. -/
def _execute_tool_step (env : Env) (step : PlanStep) (vars : Vars) :
    Except String PyVal :=
  match step.tool_name with
  | none => .error "Tool step must have a tool name"
  | some tool_name =>
    let tool_input := substitute_variables vars (step.tool_input.getD "")
    let result := execute_tool env.tools tool_name tool_input
    if ¬ result.success then
      .error ("Tool execution failed: " ++ (result.error.map PyVal.vStr |>.getD .vNone).pyStr)
    else
      .ok result.result

/-- Source `ExecutorService._execute_step`: run one step; on success record the
result, mark it COMPLETED and bind its output variable; on any exception
mark it FAILED with the stringified error (the exception never escapes).
Returns the updated step and updated context variables. -/
def _execute_step (env : Env) (task_description : String) (step : PlanStep)
    (vars : Vars) : PlanStep × Vars :=
  let outcome : Except String PyVal :=
    match step.step_type with
    | .tool => _execute_tool_step env step vars
    | .solve => .ok (.vStr (_execute_solve_step env task_description step vars))
  match outcome with
  | .ok result =>
    let step' := { step with result := result, status := .completed }
    let vars' :=
      match step.variable_name with
      | some name => dictSet vars name result
      | none => vars
    (step', vars')
  | .error e => ({ step with status := .failed, error := some e }, vars)

end ReWOO

namespace ReWOO

/-- One pass of the body of the `while` loop in
`ExecutorService.execute_plan`, after the iteration bump: pick the next
runnable step (`Plan.get_next_step`) and run it in place; `none` means no
runnable step was found (`if not next_step: break`).  The transient RUNNING
status the Python code stores on the step while it executes is overwritten
before the loop can observe it and is not materialised here. -/
def step_once (env : Env) (task_description : String) (steps : List PlanStep)
    (vars : Vars) : Option (List PlanStep × Vars) :=
  match find_runnable steps steps 0 with
  | none => none
  | some (i, s) =>
    let r := _execute_step env task_description s vars
    some (steps.set i r.1, r.2)

/-- The scheduler loop of `ExecutorService.execute_plan`
(`while context.iteration < context.max_iterations: ...`), returning the
mutated plan and execution context.  `fuel` only drives the structural
recursion: the loop condition is still tested on each pass, and any
`fuel ≥ ctx.max_iterations - ctx.iteration` makes the `0` case unreachable. -/
def exec_loop (env : Env) : Nat → Plan → ExecutionContext → Plan × ExecutionContext
  | 0, plan, ctx => (plan, ctx)
  | fuel + 1, plan, ctx =>
    if ctx.iteration < ctx.max_iterations then
      let ctx' := { ctx with iteration := ctx.iteration + 1 }
      match step_once env plan.task_description plan.steps ctx'.variables with
      | none => (plan, ctx')
      | some (steps', vars') =>
        let plan' := { plan with steps := steps' }
        let ctx'' := { ctx' with «variables» := vars' }
        if is_completed plan'.steps then (plan', ctx'')
        else if has_failed_steps plan'.steps then
          ({ plan' with status := .failed }, ctx'')
        else exec_loop env fuel plan' ctx''
    else (plan, ctx)

/-- The list comprehension
`[s for s in plan.steps if s.step_type == PlanStepType.SOLVE]` used during
plan finalization. -/
def solveStepsOf (steps : List PlanStep) : List PlanStep :=
  steps.filter fun s => s.step_type = PlanStepType.solve

/-- The finalization block at the end of `ExecutorService.execute_plan`:
a fully completed plan becomes COMPLETED and (when a SOLVE step exists and
its result is truthy) receives its final answer; any other plan that is not
already FAILED becomes FAILED. -/
def finalize_plan (plan : Plan) : Plan :=
  if is_completed plan.steps then
    let plan := { plan with status := PlanStatus.completed }
    let solve_steps := solveStepsOf plan.steps
    match solve_steps.getLast? with
    | some final_step =>
      { plan with
          final_answer :=
            if final_step.result.truthy then some final_step.result.pyStr else none }
    | none => plan
  else if plan.status ≠ .failed then { plan with status := PlanStatus.failed }
  else plan

/-- Source `ExecutorService.execute_plan`: mark the plan RUNNING, run the bounded
scheduler loop with a fresh `ExecutionContext` (empty variables, iteration
0, `max_iterations` from settings — here a parameter), then finalize.  The
context is returned alongside the plan so that iteration counts are
observable. -/
def execute_plan (env : Env) (plan : Plan) (max_iterations : Nat) :
    Plan × ExecutionContext :=
  let plan := { plan with status := PlanStatus.running }
  let ctx : ExecutionContext :=
    { «variables» := [], iteration := 0, max_iterations := max_iterations }
  let r := exec_loop env (ctx.max_iterations - ctx.iteration) plan ctx
  (finalize_plan r.1, r.2)

/-! ## Cancellation (`src/rewoo_agent/services/rewoo_service.py`) -/

/-- The state `ReWOOService` holds for one active task: the recorded task
result status, and the plan with the execution context of the in-flight
`execute_plan` call (the executor mutates them in place). -/
structure SysState where
  result_status : TaskStatus
  plan : Plan
  ctx : ExecutionContext

/-- Source `ReWOOService.cancel_task` on a tracked task: flip the recorded result
status to CANCELLED (and stamp timestamps, omitted here).  Nothing else is
touched: in particular the plan and the running executor's context are not
consulted or modified, and no flag the executor reads is set. -/
def cancel_task (st : SysState) : SysState :=
  { st with result_status := TaskStatus.cancelled }

end ReWOO

namespace ReWOO

/-! ## Helper lemmas -/

theorem finalize_plan_steps (p : Plan) : (finalize_plan p).steps = p.steps := by
  simp only [finalize_plan]
  split
  · split <;> rfl
  · split <;> rfl

theorem finalize_plan_status_of_completed (p : Plan) (h : is_completed p.steps = true) :
    (finalize_plan p).status = PlanStatus.completed := by
  simp only [finalize_plan, h, if_true]
  split <;> rfl

theorem finalize_plan_status_of_not_completed (p : Plan) (h : is_completed p.steps = false) :
    (finalize_plan p).status = PlanStatus.failed := by
  simp only [finalize_plan, h, Bool.false_eq_true, if_false]
  split
  · rfl
  · rename_i hf
    simpa using not_not.mp hf

theorem finalize_plan_answer_of_not_completed (p : Plan) (h : is_completed p.steps = false) :
    (finalize_plan p).final_answer = p.final_answer := by
  simp only [finalize_plan, h, Bool.false_eq_true, if_false]
  split <;> rfl

theorem finalize_plan_answer_of_completed (p : Plan) (h : is_completed p.steps = true) :
    (finalize_plan p).final_answer =
      match (solveStepsOf p.steps).getLast? with
      | some fs => if fs.result.truthy then some fs.result.pyStr else none
      | none => p.final_answer := by
  simp only [finalize_plan, h, if_true]
  split <;> simp_all

theorem exec_loop_final_answer (env : Env) (fuel : Nat) (plan : Plan)
    (ctx : ExecutionContext) : (exec_loop env fuel plan ctx).1.final_answer = plan.final_answer := by
  induction fuel generalizing plan ctx with
  | zero => simp [exec_loop]
  | succ n ih =>
    simp only [exec_loop]
    split
    · split
      · simp
      · split <;> first | simp | (split <;> simp [ih])
    · simp

theorem exec_loop_task_description (env : Env) (fuel : Nat) (plan : Plan)
    (ctx : ExecutionContext) :
    (exec_loop env fuel plan ctx).1.task_description = plan.task_description := by
  induction fuel generalizing plan ctx with
  | zero => simp [exec_loop]
  | succ n ih =>
    simp only [exec_loop]
    split
    · split
      · simp
      · split <;> first | simp | (split <;> simp [ih])
    · simp

theorem exec_loop_max_iterations (env : Env) (fuel : Nat) (plan : Plan)
    (ctx : ExecutionContext) :
    (exec_loop env fuel plan ctx).2.max_iterations = ctx.max_iterations := by
  induction fuel generalizing plan ctx with
  | zero => simp [exec_loop]
  | succ n ih =>
    simp only [exec_loop]
    split
    · split
      · simp
      · split <;> first | simp | (split <;> simp [ih])
    · simp

theorem exec_loop_iteration_le (env : Env) (fuel : Nat) (plan : Plan)
    (ctx : ExecutionContext) (h : ctx.iteration ≤ ctx.max_iterations) :
    (exec_loop env fuel plan ctx).2.iteration ≤ ctx.max_iterations := by
  induction fuel generalizing plan ctx with
  | zero => simpa [exec_loop]
  | succ n ih =>
    simp only [exec_loop]
    split
    · rename_i hlt
      split
      · simpa using hlt
      · split
        · simpa using hlt
        · split
          · simpa using hlt
          · simpa using ih _ _ (by simpa using hlt)
    · simpa

end ReWOO

namespace ReWOO

/-- The Boolean runnability test used by `Plan.get_next_step`. -/
def runnableB (all : List PlanStep) (s : PlanStep) : Bool :=
  s.status = PlanStepStatus.pending && are_dependencies_completed all s

theorem find_runnable_eq_none (all : List PlanStep) :
    ∀ (l : List PlanStep) (i : Nat),
      find_runnable all l i = none ↔ ∀ s ∈ l, runnableB all s = false := by
  intro l
  induction l with
  | nil => simp [find_runnable]
  | cons s rest ih =>
    intro i
    simp only [find_runnable, runnableB]
    split
    · rename_i hr
      simp only [runnableB] at *
      constructor
      · intro h; cases h
      · intro h
        have := h s (by simp)
        simp [hr] at this
    · rename_i hr
      simp only [runnableB] at *
      constructor
      · intro h t ht
        rcases List.mem_cons.mp ht with rfl | ht'
        · simpa using hr
        · exact (ih (i + 1)).mp h t ht'
      · intro h
        exact (ih (i + 1)).mpr fun t ht => h t (List.mem_cons_of_mem _ ht)

theorem find_runnable_eq_some (all : List PlanStep) :
    ∀ (l : List PlanStep) (i j : Nat) (s : PlanStep),
      find_runnable all l i = some (j, s) →
      ∃ l1 l2, l = l1 ++ s :: l2 ∧ j = i + l1.length ∧
        (∀ t ∈ l1, runnableB all t = false) ∧ runnableB all s = true := by
  intro l
  induction l with
  | nil => intro i j s h; simp [find_runnable] at h
  | cons x rest ih =>
    intro i j s h
    simp only [find_runnable] at h
    split at h
    · rename_i hr
      obtain ⟨rfl, rfl⟩ : j = i ∧ x = s := by
        constructor <;> [skip; skip] <;> cases h <;> rfl
      exact ⟨[], rest, by simp, by simp, by simp, by simpa [runnableB] using hr⟩
    · rename_i hr
      obtain ⟨l1, l2, rfl, rfl, hl1, hs⟩ := ih (i + 1) j s h
      exact ⟨x :: l1, l2, rfl, by simp; omega,
        fun t ht => by
          rcases List.mem_cons.mp ht with rfl | ht'
          · simpa [runnableB] using hr
          · exact hl1 t ht',
        hs⟩

theorem are_dependencies_completed_iff (steps : List PlanStep) (s : PlanStep) :
    are_dependencies_completed steps s = true ↔
      ∀ dep ∈ s.dependencies, ∃ d, get_step_by_id steps dep = some d ∧
        d.status = PlanStepStatus.completed := by
  simp only [are_dependencies_completed, List.all_eq_true]
  constructor
  · intro h dep hdep
    have := h dep hdep
    split at this
    · cases this
    · rename_i d hd
      exact ⟨d, hd, by simpa using this⟩
  · intro h dep hdep
    obtain ⟨d, hd, hst⟩ := h dep hdep
    simp [hd, hst]

theorem execute_step_status (env : Env) (desc : String) (s : PlanStep) (vars : Vars) :
    (_execute_step env desc s vars).1.status = PlanStepStatus.completed ∨
    (_execute_step env desc s vars).1.status = PlanStepStatus.failed := by
  simp only [_execute_step]
  split
  · exact .inl rfl
  · exact .inr rfl

theorem set_append_length (s x : PlanStep) (l1 l2 : List PlanStep) :
    (l1 ++ s :: l2).set l1.length x = l1 ++ x :: l2 := by
  induction l1 with
  | nil => rfl
  | cons y ys ih => simp [List.set, ih]

theorem getElem?_append_length (x : PlanStep) (l1 l2 : List PlanStep) :
    (l1 ++ x :: l2)[l1.length]? = some x := by
  induction l1 with
  | nil => simp
  | cons y ys ih => simpa using ih

end ReWOO

namespace ReWOO

/-! ## Concrete fixtures used by witnesses and counterexamples -/

/-- Environment with an empty tool registry and a completion service that
always raises. -/
def envDown : Env := { tools := [], llm := fun _ => none }

/-- Environment whose completion service answers with whitespace only
(stripping yields the empty string). -/
def envBlankAnswer : Env := { tools := [], llm := fun _ => some "  " }

/-- A tool that always succeeds with the string result "r". -/
def okSearchTool : String → Except String ToolResult :=
  fun _ => .ok (ToolResult.success_result (.vStr "r"))

/-- Environment with a working `search` tool. -/
def envSearch : Env := { tools := [("search", okSearchTool)], llm := fun _ => none }

/-- A pending TOOL step whose dependency id matches no step. -/
def blockedStep : PlanStep :=
  { step_id := "s1"
    step_type := .tool
    step_number := 1
    tool_name := some "search"
    tool_input := some "x"
    dependencies := ["ghost"]
    description := "blocked" }

/-- A plan whose only step can never become runnable. -/
def blockedPlan : Plan :=
  { plan_id := "pb", task_description := "t", steps := [blockedStep] }

/-- A plan with no steps at all. -/
def emptyPlan : Plan :=
  { plan_id := "pe", task_description := "t", steps := [] }

/-- A fresh execution context with iteration 0 and the given budget. -/
def ctx0 (m : Nat) : ExecutionContext :=
  { «variables» := [], iteration := 0, max_iterations := m }

end ReWOO

namespace ReWOO

/-! ## Claim theorems -/

/-- Claim C2 (confirmed).  For every plan — including one with a step whose
dependencies never complete — the scheduler loop in `execute_plan` performs
at most `max_iterations` iterations and then halts (the embedding is a
total function and the final context records one iteration per loop pass);
when it halts without every step COMPLETED — in particular with the
iteration budget exhausted — the plan ends in status FAILED, and otherwise
it ends COMPLETED. -/
theorem execute_plan_halts_within_budget (env : Env) (plan : Plan) (max_iterations : Nat) :
    (execute_plan env plan max_iterations).2.iteration ≤ max_iterations ∧
    (is_completed (execute_plan env plan max_iterations).1.steps = false →
      (execute_plan env plan max_iterations).1.status = PlanStatus.failed) ∧
    (is_completed (execute_plan env plan max_iterations).1.steps = true →
      (execute_plan env plan max_iterations).1.status = PlanStatus.completed) := by
  refine ⟨?_, ?_, ?_⟩
  · simpa [execute_plan] using
      exec_loop_iteration_le env max_iterations { plan with status := PlanStatus.running }
        { «variables» := [], iteration := 0, max_iterations := max_iterations } (by simp)
  · intro h
    simp only [execute_plan] at h ⊢
    rw [finalize_plan_steps] at h
    exact finalize_plan_status_of_not_completed _ h
  · intro h
    simp only [execute_plan] at h ⊢
    rw [finalize_plan_steps] at h
    exact finalize_plan_status_of_completed _ h

/-- Witness for C2: a concrete plan whose single step is blocked by a
dangling dependency is not completed after execution, and the theorem then
yields the iteration bound and the FAILED status. -/
theorem execute_plan_halts_within_budget_witness :
    is_completed (execute_plan envDown blockedPlan 5).1.steps = false ∧
    (execute_plan envDown blockedPlan 5).2.iteration ≤ 5 ∧
    (execute_plan envDown blockedPlan 5).1.status = PlanStatus.failed :=
  ⟨by decide, (execute_plan_halts_within_budget envDown blockedPlan 5).1,
    (execute_plan_halts_within_budget envDown blockedPlan 5).2.1 (by decide)⟩

/-- Claim C10 (confirmed).  For every plan whose steps list is empty (with its
final answer still unset, and a positive iteration budget), `execute_plan`
stops after its first iteration — no runnable step exists — and finalizes
the plan with status COMPLETED and `final_answer` unset, because the
all-steps-completed check is vacuously true on an empty step list. -/
theorem execute_plan_empty_steps (env : Env) (plan : Plan) (max_iterations : Nat)
    (hsteps : plan.steps = []) (hfa : plan.final_answer = none)
    (hmax : 1 ≤ max_iterations) :
    (execute_plan env plan max_iterations).2.iteration = 1 ∧
    (execute_plan env plan max_iterations).1.status = PlanStatus.completed ∧
    (execute_plan env plan max_iterations).1.final_answer = none := by
  obtain ⟨k, rfl⟩ : ∃ k, max_iterations = k + 1 := ⟨max_iterations - 1, by omega⟩
  simp [execute_plan, exec_loop, step_once, find_runnable, hsteps, hfa, finalize_plan,
    is_completed, solveStepsOf]

/-- Witness for C10 at a concrete empty plan. -/
theorem execute_plan_empty_steps_witness :
    (execute_plan envDown emptyPlan 10).2.iteration = 1 ∧
    (execute_plan envDown emptyPlan 10).1.status = PlanStatus.completed ∧
    (execute_plan envDown emptyPlan 10).1.final_answer = none :=
  execute_plan_empty_steps envDown emptyPlan 10 rfl rfl (by omega)

end ReWOO

namespace ReWOO

/-- A plan exercising every selection case: a COMPLETED step, a PENDING
step blocked by a dangling dependency id, and a PENDING step whose
dependency is COMPLETED. -/
def mixedPlan : Plan :=
  { plan_id := "pm"
    task_description := "t"
    steps :=
      [ { step_id := "a", step_type := .tool, step_number := 1,
          tool_name := some "search", description := "done", status := .completed },
        { step_id := "b", step_type := .tool, step_number := 2,
          tool_name := some "search", dependencies := ["ghost"], description := "blocked" },
        { step_id := "c", step_type := .solve, step_number := 3,
          dependencies := ["a"], description := "ready" } ] }

/-- The step `get_next_step` selects in `mixedPlan`. -/
def mixedReady : PlanStep :=
  { step_id := "c", step_type := .solve, step_number := 3,
    dependencies := ["a"], description := "ready" }

/-- Claim C6 (confirmed).  In every iteration the scheduler selects as the
next runnable step the first step in declaration order whose status is
PENDING and all of whose listed dependency steps resolve (by id) to steps
with status COMPLETED — a dependency id matching no step blocks its step;
if no such step exists, no step is selected (`get_next_step` is `None`) and
the loop returns the plan unchanged, incrementing the iteration counter at
most once. -/
theorem get_next_step_selects_first_runnable (p : Plan) :
    (∀ s, get_next_step p = some s →
      s.status = PlanStepStatus.pending ∧
      (∀ dep ∈ s.dependencies, ∃ d, get_step_by_id p.steps dep = some d ∧
        d.status = PlanStepStatus.completed) ∧
      ∃ l1 l2, p.steps = l1 ++ s :: l2 ∧
        ∀ t ∈ l1, t.status = PlanStepStatus.pending →
          ¬ ∀ dep ∈ t.dependencies, ∃ d, get_step_by_id p.steps dep = some d ∧
            d.status = PlanStepStatus.completed) ∧
    (get_next_step p = none ↔
      ∀ s ∈ p.steps, s.status = PlanStepStatus.pending →
        ¬ ∀ dep ∈ s.dependencies, ∃ d, get_step_by_id p.steps dep = some d ∧
          d.status = PlanStepStatus.completed) ∧
    (∀ env fuel ctx, get_next_step p = none →
      (exec_loop env fuel p ctx).1 = p ∧
      (exec_loop env fuel p ctx).2.variables = ctx.variables ∧
      (exec_loop env fuel p ctx).2.iteration ≤ ctx.iteration + 1) := by
  have hrB : ∀ t : PlanStep, runnableB p.steps t = false ↔
      (t.status = PlanStepStatus.pending →
        ¬ ∀ dep ∈ t.dependencies, ∃ d, get_step_by_id p.steps dep = some d ∧
          d.status = PlanStepStatus.completed) := by
    intro t
    rw [← are_dependencies_completed_iff]
    simp only [runnableB, Bool.and_eq_false_iff]
    constructor
    · rintro (h | h) hp
      · simp [hp] at h
      · simp [h]
    · intro h
      by_cases hp : t.status = PlanStepStatus.pending
      · exact .inr (by simpa using h hp)
      · exact .inl (by simpa using hp)
  refine ⟨?_, ?_, ?_⟩
  · intro s hs
    simp only [get_next_step, Option.map_eq_some'] at hs
    obtain ⟨⟨j, s'⟩, hfind, rfl⟩ := hs
    obtain ⟨l1, l2, hsplit, -, hl1, hrun⟩ := find_runnable_eq_some p.steps p.steps 0 j s' hfind
    simp only [runnableB, Bool.and_eq_true, decide_eq_true_eq] at hrun
    refine ⟨hrun.1, (are_dependencies_completed_iff _ _).mp hrun.2, l1, l2, hsplit, ?_⟩
    intro t ht
    exact (hrB t).mp (hl1 t ht)
  · rw [get_next_step, Option.map_eq_none', find_runnable_eq_none]
    exact ⟨fun h s hsmem => (hrB s).mp (h s hsmem),
      fun h s hsmem => (hrB s).mpr (h s hsmem)⟩
  · intro env fuel ctx hnone
    have hfind : find_runnable p.steps p.steps 0 = none := by
      simpa [get_next_step, Option.map_eq_none'] using hnone
    cases fuel with
    | zero => simp [exec_loop]
    | succ n =>
      simp only [exec_loop, step_once, hfind]
      split <;> simp

/-- Witness for C6: in `mixedPlan` the selected step is the third one (the
first two are not runnable), and in `blockedPlan` no step is selected and
the loop leaves the plan untouched. -/
theorem get_next_step_selects_first_runnable_witness :
    get_next_step mixedPlan = some mixedReady ∧
    mixedReady.status = PlanStepStatus.pending ∧
    get_next_step blockedPlan = none ∧
    (exec_loop envDown 5 blockedPlan (ctx0 5)).1 = blockedPlan :=
  ⟨by decide,
    (((get_next_step_selects_first_runnable mixedPlan).1) mixedReady (by decide)).1,
    by decide,
    (((get_next_step_selects_first_runnable blockedPlan).2.2) envDown 5
      (ctx0 5) (by decide)).1⟩

end ReWOO

namespace ReWOO

/-- A pending TOOL step naming a tool that is not in the registry. -/
def ghostToolStep : PlanStep :=
  { step_id := "s1"
    step_type := .tool
    step_number := 1
    tool_name := some "nonexistent"
    tool_input := some "x"
    variable_name := some "v"
    description := "ghost tool" }

/-- A plan whose only step names a nonexistent tool. -/
def ghostToolPlan : Plan :=
  { plan_id := "pg", task_description := "t", steps := [ghostToolStep] }

/-- Claim C4 (confirmed).  For every TOOL step whose tool invocation fails —
including when the named tool is not present in the registry, which yields
an unsuccessful `ToolResult` — executing the step records status FAILED and
an error message on the step instead of crashing (the embedding is total
and the exception is absorbed by `_execute_step`), and the execution loop
then marks the whole plan FAILED; in the nonexistent-tool scenario the plan
ends FAILED and `final_answer` is unset. -/
theorem tool_failure_fails_step_and_plan :
    (∀ (tools : List (String × (String → Except String ToolResult))) (name input : String),
      get_tool tools name = none →
      execute_tool tools name input =
        ToolResult.error_result ("Tool '" ++ name ++ "' not found")) ∧
    (∀ (env : Env) (desc : String) (s : PlanStep) (vars : Vars) (n : String),
      s.step_type = PlanStepType.tool → s.tool_name = some n →
      (execute_tool env.tools n (substitute_variables vars (s.tool_input.getD ""))).success
        = false →
      (_execute_step env desc s vars).1.status = PlanStepStatus.failed ∧
      (_execute_step env desc s vars).1.error.isSome = true ∧
      (_execute_step env desc s vars).2 = vars) ∧
    (∀ (env : Env) (fuel : Nat) (plan : Plan) (ctx : ExecutionContext) (i : Nat)
        (s : PlanStep),
      ctx.iteration < ctx.max_iterations →
      find_runnable plan.steps plan.steps 0 = some (i, s) →
      (_execute_step env plan.task_description s ctx.variables).1.status
        = PlanStepStatus.failed →
      (exec_loop env (fuel + 1) plan ctx).1.status = PlanStatus.failed) ∧
    ((execute_plan envDown ghostToolPlan 10).1.status = PlanStatus.failed ∧
      (execute_plan envDown ghostToolPlan 10).1.final_answer = none ∧
      ((execute_plan envDown ghostToolPlan 10).1.steps.map PlanStep.error) =
        [some "Tool execution failed: Tool 'nonexistent' not found"]) := by
  refine ⟨?_, ?_, ?_, by decide⟩
  · intro tools name input h
    simp [execute_tool, h]
  · intro env desc s vars n htype hname hfail
    simp [_execute_step, htype, _execute_tool_step, hname, hfail]
  · intro env fuel plan ctx i s hlt hfind hfail
    obtain ⟨l1, l2, hsplit, hi, -, -⟩ := find_runnable_eq_some plan.steps plan.steps 0 i s hfind
    simp only [exec_loop, if_pos hlt, step_once, hfind]
    have hset : plan.steps.set i (_execute_step env plan.task_description s ctx.variables).1
        = l1 ++ (_execute_step env plan.task_description s ctx.variables).1 :: l2 := by
      rw [hsplit, hi]
      simp [set_append_length s _ l1 l2]
    have hnc : is_completed (plan.steps.set i
        (_execute_step env plan.task_description s ctx.variables).1) = false := by
      rw [hset]
      simp [is_completed, hfail]
    have hhf : has_failed_steps (plan.steps.set i
        (_execute_step env plan.task_description s ctx.variables).1) = true := by
      rw [hset]
      simp only [has_failed_steps, List.any_append, List.any_cons, hfail]
      simp
    simp [hnc, hhf]

/-- Witness for C4: the missing-tool lookup, the failing step execution and
the loop consequence, all at the concrete nonexistent-tool scenario. -/
theorem tool_failure_fails_step_and_plan_witness :
    execute_tool envDown.tools "nonexistent" "x" =
      ToolResult.error_result "Tool 'nonexistent' not found" ∧
    (_execute_step envDown "t" ghostToolStep []).1.status = PlanStepStatus.failed ∧
    (exec_loop envDown 10 ghostToolPlan (ctx0 10)).1.status = PlanStatus.failed :=
  ⟨by
    have := tool_failure_fails_step_and_plan.1 envDown.tools "nonexistent" "x" rfl
    simpa using this,
  (tool_failure_fails_step_and_plan.2.1 envDown "t" ghostToolStep [] "nonexistent"
    rfl rfl (by decide)).1,
  by
    have := tool_failure_fails_step_and_plan.2.2.1 envDown 9 ghostToolPlan (ctx0 10) 0
      ghostToolStep (by decide) (by decide) (by decide)
    simpa using this⟩

end ReWOO

namespace ReWOO

/-- A pending SOLVE step bound to the variable `answer`. -/
def plainSolveStep : PlanStep :=
  { step_id := "s1"
    step_type := .solve
    step_number := 1
    tool_input := some "combine everything"
    variable_name := some "answer"
    description := "solve" }

/-- Claim C5 (confirmed).  For every SOLVE step, if the completion service
call fails (the oracle returns `none` for every prompt), executing the step
does not propagate the failure and does not mark the step FAILED: the step
ends COMPLETED, its result is the best-effort answer built by concatenating
the current `name: value` variable pairs, its error field is untouched, and
its output variable (when present) is bound to that answer. -/
theorem solve_degradation_completes_step (env : Env) (desc : String) (s : PlanStep)
    (vars : Vars) (htype : s.step_type = PlanStepType.solve)
    (hllm : ∀ prompt, env.llm prompt = none) :
    (_execute_step env desc s vars).1.status = PlanStepStatus.completed ∧
    (_execute_step env desc s vars).1.result =
      PyVal.vStr ("Based on the available information: " ++ pyJoin ", " (renderVars vars)) ∧
    (_execute_step env desc s vars).1.error = s.error ∧
    (∀ name, s.variable_name = some name →
      (_execute_step env desc s vars).2 = dictSet vars name
        (PyVal.vStr ("Based on the available information: "
          ++ pyJoin ", " (renderVars vars)))) := by
  simp only [_execute_step, htype, _execute_solve_step, hllm]
  refine ⟨by trivial, by trivial, by trivial, ?_⟩
  intro name hname
  simp [hname]

/-- Witness for C5 at a concrete solve step, a dead completion service and
two bound variables. -/
theorem solve_degradation_completes_step_witness :
    (_execute_step envDown "t" plainSolveStep
      [("a", PyVal.vStr "1"), ("b", PyVal.vInt 2)]).1.status = PlanStepStatus.completed ∧
    (_execute_step envDown "t" plainSolveStep
      [("a", PyVal.vStr "1"), ("b", PyVal.vInt 2)]).1.result =
      PyVal.vStr "Based on the available information: a: 1, b: 2" :=
  ⟨(solve_degradation_completes_step envDown "t" plainSolveStep
      [("a", PyVal.vStr "1"), ("b", PyVal.vInt 2)] rfl fun _ => rfl).1,
   by
    have := (solve_degradation_completes_step envDown "t" plainSolveStep
      [("a", PyVal.vStr "1"), ("b", PyVal.vInt 2)] rfl fun _ => rfl).2.1
    rw [this]
    decide⟩

end ReWOO

namespace ReWOO

/-- Claim C1, counterexample.  A successful completion response containing zero
valid `Plan:` lines makes `_generate_plan_steps` return the empty step list,
not the 3-step fallback plan: the fallback is produced only when the
completion service raises. -/
theorem zero_steps_no_fallback_counterexample :
    _parse_plan_text "The capital of France is Paris." = [] ∧
    _generate_plan_steps (Except.ok "The capital of France is Paris.") "t" = [] ∧
    _generate_plan_steps (Except.ok "The capital of France is Paris.") "t" ≠
      _create_fallback_plan "t" := by
  refine ⟨by decide, by decide, ?_⟩
  intro h
  have : ([] : List PlanStep) = _create_fallback_plan "t" := by
    rw [← h]
    decide
  simp [_create_fallback_plan] at this

/-- Claim C1, amended.  If the completion service errors, plan generation
returns the deterministic 3-step fallback plan — step 1 a TOOL step on the
`search` tool with the raw task description as input bound to
`search_result`, step 2 a TOOL step on the `wikipedia` tool bound to
`wiki_info`, and step 3 a SOLVE step bound to `answer`.  If the service
succeeds but the response text parses to zero steps (in particular when it
contains zero valid `Plan:` lines), plan generation returns the empty step
list — not the fallback. -/
theorem generate_plan_steps_fallback_spec :
    (∀ (e : String) (desc : String),
      _generate_plan_steps (Except.error e) desc = _create_fallback_plan desc) ∧
    (∀ desc : String,
      (_create_fallback_plan desc).map
        (fun s => (s.step_type, s.tool_name, s.tool_input, s.variable_name)) =
      [(PlanStepType.tool, some "search", some desc, some "search_result"),
       (PlanStepType.tool, some "wikipedia", some desc, some "wiki_info"),
       (PlanStepType.solve, none,
        some "Use the search results #{search_result}# and Wikipedia information #{wiki_info}# to provide a comprehensive answer to: {task_description}",
        some "answer")]) ∧
    (∀ (text desc : String), _parse_plan_text text = [] →
      _generate_plan_steps (Except.ok text) desc = []) := by
  refine ⟨fun e desc => rfl, fun desc => rfl, ?_⟩
  intro text desc h
  simpa [_generate_plan_steps] using h

/-- Witness for C1 (amended): the fallback on a raising completion service,
and the empty result on a successful prose-only response. -/
theorem generate_plan_steps_fallback_spec_witness :
    _generate_plan_steps (Except.error "timeout") "find x" = _create_fallback_plan "find x" ∧
    _parse_plan_text "just prose" = [] ∧
    _generate_plan_steps (Except.ok "just prose") "find x" = [] :=
  ⟨generate_plan_steps_fallback_spec.1 "timeout" "find x", by decide,
    generate_plan_steps_fallback_spec.2.2 "just prose" "find x" (by decide)⟩

end ReWOO

namespace ReWOO

/-- A one-step plan whose only (SOLVE) step is `plainSolveStep`. -/
def soloSolvePlan : Plan :=
  { plan_id := "ps", task_description := "t", steps := [plainSolveStep] }

/-- Claim C3, counterexample.  When the completion service answers with
whitespace, the SOLVE step completes with the empty string as its result,
the plan ends COMPLETED — yet `final_answer` stays unset instead of holding
the string form `""` of the last SOLVE step's result, because finalization
tests the result for Python truthiness before storing it. -/
theorem final_answer_skips_falsy_result_counterexample :
    (execute_plan envBlankAnswer soloSolvePlan 10).1.status = PlanStatus.completed ∧
    ((execute_plan envBlankAnswer soloSolvePlan 10).1.steps.map PlanStep.step_type) =
      [PlanStepType.solve] ∧
    ((execute_plan envBlankAnswer soloSolvePlan 10).1.steps.map PlanStep.result) =
      [PyVal.vStr ""] ∧
    (PyVal.vStr "").pyStr = "" ∧
    (execute_plan envBlankAnswer soloSolvePlan 10).1.final_answer = none ∧
    (execute_plan envBlankAnswer soloSolvePlan 10).1.final_answer ≠
      some (PyVal.vStr "").pyStr := by
  decide

/-- The finalization side of C3, for any plan whose final answer is unset:
an answer can only appear on a COMPLETED plan, and on a COMPLETED plan it
is the string form of the last SOLVE step's result when that result is
truthy, and stays unset when the result is falsy or no SOLVE step exists. -/
theorem finalize_plan_answer_spec (p : Plan) (h : p.final_answer = none) :
    ((finalize_plan p).final_answer ≠ none →
      (finalize_plan p).status = PlanStatus.completed) ∧
    ((finalize_plan p).status = PlanStatus.completed →
      (finalize_plan p).final_answer =
        match (solveStepsOf (finalize_plan p).steps).getLast? with
        | some fs => if fs.result.truthy then some fs.result.pyStr else none
        | none => none) := by
  cases hc : is_completed p.steps with
  | true =>
    have hst := finalize_plan_status_of_completed p hc
    have hans := finalize_plan_answer_of_completed p hc
    refine ⟨fun _ => hst, fun _ => ?_⟩
    rw [hans, finalize_plan_steps, h]
  | false =>
    have hst := finalize_plan_status_of_not_completed p hc
    have hans := finalize_plan_answer_of_not_completed p hc
    refine ⟨fun hne => absurd (hans.trans h) hne, fun hcomp => ?_⟩
    rw [hst] at hcomp
    exact PlanStatus.noConfusion hcomp

/-- Claim C3, amended.  After `execute_plan` finishes (on a plan whose
`final_answer` starts unset, as the planner produces), `final_answer` is
set only when the plan's status is COMPLETED; when the status is COMPLETED,
`final_answer` is the string form of the result of the last SOLVE step in
declaration order if that result is truthy, and remains unset when that
result is falsy (e.g. the empty string) or when no SOLVE step exists. -/
theorem execute_plan_final_answer_spec (env : Env) (plan : Plan) (m : Nat)
    (h : plan.final_answer = none) :
    ((execute_plan env plan m).1.final_answer ≠ none →
      (execute_plan env plan m).1.status = PlanStatus.completed) ∧
    ((execute_plan env plan m).1.status = PlanStatus.completed →
      (execute_plan env plan m).1.final_answer =
        match (solveStepsOf (execute_plan env plan m).1.steps).getLast? with
        | some fs => if fs.result.truthy then some fs.result.pyStr else none
        | none => none) := by
  have hq : (exec_loop env m { plan with status := PlanStatus.running }
      (ctx0 m)).1.final_answer = none := by
    rw [exec_loop_final_answer]
    exact h
  exact finalize_plan_answer_spec _ hq

/-- Witness for C3 (amended): with a dead completion service the solve
degradation produces a truthy answer, so the final answer is set and the
theorem forces the COMPLETED status. -/
theorem execute_plan_final_answer_spec_witness :
    (execute_plan envDown soloSolvePlan 10).1.final_answer ≠ none ∧
    (execute_plan envDown soloSolvePlan 10).1.status = PlanStatus.completed :=
  ⟨by decide, (execute_plan_final_answer_spec envDown soloSolvePlan 10 rfl).1 (by decide)⟩

end ReWOO

namespace ReWOO

/-- Claim C7, counterexample.  A `Plan:` line whose body contains two
occurrences of `" -> "`: splitting on the *first* occurrence would give
exactly two parts (so under the claim the line would be parsed), but the
parser splits on *every* occurrence, obtains three parts, and skips the
line. -/
theorem parse_line_split_counterexample :
    (pySplit1 "1. TOOL search a -> b -> #v#" " -> ").length = 2 ∧
    (pySplit "1. TOOL search a -> b -> #v#" " -> ").length = 3 ∧
    parse_plan_line "Plan: 1. TOOL search a -> b -> #v#" = none ∧
    _parse_plan_text "Plan: 1. TOOL search a -> b -> #v#" = [] := by
  decide

/-- Claim C7, amended.  For every line of plan text that starts with the
`Plan:` prefix, the parser splits the line's body on *every* occurrence of
`" -> "`; any line for which this split does not yield exactly two parts
(i.e. the body does not contain exactly one occurrence) is skipped rather
than causing a fatal error, and parsing continues with the remaining lines:
the parse result is the same as if the skipped line were absent. -/
theorem parse_plan_line_skip_continues :
    (∀ line : String, pyStartsWith (pyStrip line) "Plan:" = true →
      (pySplit (pyStrip ⟨(pyStrip line).data.drop 5⟩) " -> ").length ≠ 2 →
      parse_plan_line line = none) ∧
    (∀ (pre post : List String) (l : String), parse_plan_line l = none →
      sortByNumber ((pre ++ l :: post).filterMap parse_plan_line) =
        sortByNumber ((pre ++ post).filterMap parse_plan_line)) ∧
    (∀ text : String, _parse_plan_text text =
      sortByNumber ((pySplit (pyStrip text) "\n").filterMap parse_plan_line)) := by
  refine ⟨?_, ?_, fun text => rfl⟩
  · intro line h1 h2
    simp only [parse_plan_line, h1, Bool.true_eq_false, not_true_eq_false, if_false,
      Bool.not_eq_true, reduceCtorEq, if_neg, not_false_eq_true]
    split
    · rename_i p0 p1 heq
      exact absurd (by rw [heq]; rfl) h2
    · rfl
  · intro pre post l h
    rw [List.filterMap_append, List.filterMap_append, List.filterMap_cons, h]

/-- Witness for C7 (amended): the two-arrow line is skipped and a plan text
containing it parses exactly like the same text without it. -/
theorem parse_plan_line_skip_continues_witness :
    parse_plan_line "Plan: 1. TOOL search a -> b -> #v#" = none ∧
    sortByNumber (["Plan: 1. TOOL search a -> b -> #v#",
        "Plan: 2. SOLVE use it -> #answer#"].filterMap parse_plan_line) =
      sortByNumber (["Plan: 2. SOLVE use it -> #answer#"].filterMap parse_plan_line) :=
  ⟨parse_plan_line_skip_continues.1 "Plan: 1. TOOL search a -> b -> #v#"
      (by decide) (by decide),
    parse_plan_line_skip_continues.2.1 [] ["Plan: 2. SOLVE use it -> #answer#"]
      "Plan: 1. TOOL search a -> b -> #v#"
      (parse_plan_line_skip_continues.1 "Plan: 1. TOOL search a -> b -> #v#"
        (by decide) (by decide))⟩

end ReWOO

namespace ReWOO

/-- Bound variables for the C8 counterexample: values `"y"` and `"x"`
contain no `#` at all, hence no placeholder pattern. -/
def hashVars : Vars := [("x", PyVal.vStr "y"), ("a", PyVal.vStr "x")]

/-- Claim C8, counterexample.  With bound variables `x ↦ "y"` and `a ↦ "x"`
(whose values contain no `#` character, hence no placeholder pattern),
substituting into `"##a##"` yields `"#x#"` — replacement glues the inserted
value to the neighbouring `#` characters of the original text and creates a
brand-new placeholder — and a second substitution pass yields `"y"`, so the
substitution is not idempotent although no bound value contains a
placeholder pattern. -/
theorem substitute_not_idempotent_counterexample :
    pyContains (PyVal.vStr "y").pyStr "#" = false ∧
    pyContains (PyVal.vStr "x").pyStr "#" = false ∧
    substitute_variables hashVars "##a##" = "#x#" ∧
    substitute_variables hashVars (substitute_variables hashVars "##a##") = "y" ∧
    substitute_variables hashVars (substitute_variables hashVars "##a##") ≠
      substitute_variables hashVars "##a##" := by
  decide

/-- Claim C8, amended.  Variable substitution performs a single replacement
pass per bound variable, folding over the variables in dict order — text
inserted by an earlier variable's pass can still be rewritten by a later
variable's pass, and replacement can create new placeholders out of
adjacent `#` characters.  A placeholder with no matching bound variable is
never itself a replacement target; substitution is a no-op on any text
containing no bound variable's placeholder (in particular on text with no
placeholders at all), and it is idempotent whenever its output contains no
bound variable's placeholder. -/
theorem substitute_variables_spec :
    (∀ (vars : Vars) (t : String),
      (∀ kv ∈ vars, pyContains t ("#" ++ kv.1 ++ "#") = false) →
      substitute_variables vars t = t) ∧
    (∀ (vars : Vars) (t : String),
      (∀ kv ∈ vars,
        pyContains (substitute_variables vars t) ("#" ++ kv.1 ++ "#") = false) →
      substitute_variables vars (substitute_variables vars t) =
        substitute_variables vars t) := by
  have noop : ∀ (vars : Vars) (t : String),
      (∀ kv ∈ vars, pyContains t ("#" ++ kv.1 ++ "#") = false) →
      substitute_variables vars t = t := by
    intro vars
    induction vars with
    | nil => intro t _; rfl
    | cons kv rest ih =>
      intro t h
      have hkv : pyContains t ("#" ++ kv.1 ++ "#") = false := h kv (by simp)
      have hstep : substitute_variables (kv :: rest) t = substitute_variables rest t := by
        simp only [substitute_variables, List.foldl_cons, hkv, Bool.false_eq_true,
          if_false]
      rw [hstep]
      exact ih t fun p hp => h p (List.mem_cons_of_mem _ hp)
  exact ⟨noop, fun vars t h => noop vars (substitute_variables vars t) h⟩

/-- Witness for C8 (amended): a concrete no-op and a concrete idempotent
substitution, both obtained through the theorem. -/
theorem substitute_variables_spec_witness :
    substitute_variables hashVars "no placeholders here" = "no placeholders here" ∧
    substitute_variables hashVars (substitute_variables hashVars "see #a# go") =
      substitute_variables hashVars "see #a# go" :=
  ⟨substitute_variables_spec.1 hashVars "no placeholders here" (by decide),
    substitute_variables_spec.2 hashVars "see #a# go" (by decide)⟩

end ReWOO

namespace ReWOO

/-- A pending TOOL step on the working `search` tool. -/
def searchStep : PlanStep :=
  { step_id := "s1"
    step_type := .tool
    step_number := 1
    tool_name := some "search"
    tool_input := some "q"
    variable_name := some "v"
    description := "search" }

/-- A running plan whose only step is still PENDING. -/
def searchPlan : Plan :=
  { plan_id := "p9"
    task_description := "t"
    steps := [searchStep]
    status := .running }

/-- Mid-execution system state: the task is recorded as EXECUTING and the
executor still has its whole iteration budget. -/
def midExecState : SysState :=
  { result_status := .executing, plan := searchPlan, ctx := ctx0 10 }

/-- Claim C9, counterexample.  After `cancel_task` records CANCELLED, the
executor — whose loop consults no cancellation flag — still runs the step
that was PENDING at cancellation time: resuming the loop on the unchanged
plan and context completes the pending step.  So it is not the case that
once a task is CANCELLED no PENDING step of its plan is ever started. -/
theorem cancelled_task_still_runs_pending_step_counterexample :
    (cancel_task midExecState).result_status = TaskStatus.cancelled ∧
    ((cancel_task midExecState).plan.steps.map PlanStep.status) =
      [PlanStepStatus.pending] ∧
    ((exec_loop envSearch
        ((cancel_task midExecState).ctx.max_iterations -
          (cancel_task midExecState).ctx.iteration)
        (cancel_task midExecState).plan
        (cancel_task midExecState).ctx).1.steps.map PlanStep.status) =
      [PlanStepStatus.completed] := by
  decide

/-- Claim C9, amended.  `cancel_task` only flips the recorded task status to
CANCELLED: the plan and the executor's context are untouched, the executor
loop's behaviour is identical before and after cancellation (it reads no
cancelled flag), and whenever a runnable PENDING step exists the next loop
pass still starts it and leaves it COMPLETED or FAILED.  The in-flight step
is thus recorded, but the executor never observes the cancellation and
stops only for its own reasons (no runnable step, plan completion or
failure, or iteration budget). -/
theorem cancel_task_not_observed_by_executor (env : Env) (st : SysState) :
    (cancel_task st).result_status = TaskStatus.cancelled ∧
    (cancel_task st).plan = st.plan ∧
    (cancel_task st).ctx = st.ctx ∧
    (∀ fuel, exec_loop env fuel (cancel_task st).plan (cancel_task st).ctx =
      exec_loop env fuel st.plan st.ctx) ∧
    (∀ (i : Nat) (s : PlanStep),
      find_runnable st.plan.steps st.plan.steps 0 = some (i, s) →
      ∃ steps' vars',
        step_once env st.plan.task_description st.plan.steps st.ctx.variables =
          some (steps', vars') ∧
        steps'[i]? = some (_execute_step env st.plan.task_description s
          st.ctx.variables).1 ∧
        ((_execute_step env st.plan.task_description s st.ctx.variables).1.status =
            PlanStepStatus.completed ∨
          (_execute_step env st.plan.task_description s st.ctx.variables).1.status =
            PlanStepStatus.failed)) := by
  refine ⟨rfl, rfl, rfl, fun fuel => rfl, ?_⟩
  intro i s hfind
  obtain ⟨l1, l2, hsplit, hi, -, -⟩ :=
    find_runnable_eq_some st.plan.steps st.plan.steps 0 i s hfind
  refine ⟨st.plan.steps.set i
      (_execute_step env st.plan.task_description s st.ctx.variables).1,
    (_execute_step env st.plan.task_description s st.ctx.variables).2, ?_, ?_, ?_⟩
  · simp only [step_once, hfind]
  · rw [hsplit, hi]
    simp only [Nat.zero_add]
    rw [set_append_length]
    exact getElem?_append_length _ l1 l2
  · exact execute_step_status env st.plan.task_description s st.ctx.variables

/-- Witness for C9 (amended) at the concrete mid-execution state: the
recorded status flips, and the executor's next pass still produces a step
list (it executes the pending step). -/
theorem cancel_task_not_observed_by_executor_witness :
    (cancel_task midExecState).result_status = TaskStatus.cancelled ∧
    (step_once envSearch midExecState.plan.task_description midExecState.plan.steps
      midExecState.ctx.variables).isSome = true := by
  refine ⟨(cancel_task_not_observed_by_executor envSearch midExecState).1, ?_⟩
  obtain ⟨steps', vars', hso, -, -⟩ :=
    (cancel_task_not_observed_by_executor envSearch midExecState).2.2.2.2 0 searchStep
      (by decide)
  simp [hso]

end ReWOO
